import Mathlib

/-!
Verification of the secret-management and transaction-lifecycle core of
GoSignerVaultCLI (Go) against its specification, via a shallow embedding.

Conventions of the embedding:
* Go byte slices are `List Nat` (each entry a byte value; bounds are carried
  as hypotheses where they matter).
* Randomness consumed by the code (`io.ReadFull(rand.Reader, ...)`) is passed
  in as explicit arguments.
* The cryptographic primitives that live outside this repository
  (crypto/sha256, AES-GCM from crypto/cipher, Keccak-256 and secp256k1 key
  parsing from go-ethereum) are modelled symbolically: deterministic,
  executable functions of which only determinism and collision-freedom are
  used, in the style of a symbolic (Dolev-Yao) model.  Each such model is
  marked `Modelled from the spec:` in its doc comment.
* Hex transport (`fmt.Sprintf("0x%x", ...)` / `hex.DecodeString`) is a
  bijection between byte slices and strings; record fields hold the byte
  lists directly and the hex codec is elided.
-/

/-- Bytes of a Go string (`[]byte(password)`): the code points of its
characters. -/
def strBytes (s : String) : List Nat := s.data.map Char.toNat

/-- Modelled from the spec: `crypto/sha256.Sum256` (Go standard library, not
part of this repository).  Modelled as an ideal, collision-free hash: an
injective tagged embedding of the input.  Only determinism and
collision-freedom of SHA-256 are used by the proofs. -/
def sha256Model (l : List Nat) : List Nat := 0 :: l

/-- Modelled from the spec: go-ethereum `crypto.Keccak256` (external).
Ideal, collision-free hash, tagged differently from `sha256Model`. -/
def keccak256Model (l : List Nat) : List Nat := 1 :: l

/-- One hex digit. -/
def hexDigit (n : Nat) : Char :=
  if n < 10 then Char.ofNat (48 + n) else Char.ofNat (87 + n)

/-- Lower-case hex rendering of a byte list (`fmt.Sprintf("%x", ...)`). -/
def bytesToHex (l : List Nat) : String :=
  String.mk (l.foldr (fun b acc => hexDigit (b / 16) :: hexDigit (b % 16) :: acc) [])

/-- src/keystore/encrypt.go `deriveKey`: a single SHA-256 of
`append([]byte(password), salt...)`.  (The source's own comment notes that a
real KDF such as PBKDF2 should be used instead.) -/
def deriveKey (password : String) (salt : List Nat) : List Nat :=
  sha256Model (strBytes password ++ salt)

/-- Modelled from the spec: the authentication tag produced by Go
`crypto/cipher`'s AES-GCM (external).  In the symbolic model the tag is the
triple (key, nonce, ciphertext) it authenticates; verification is equality of
triples.  Only "the tag authenticates exactly this key, nonce and
ciphertext" is used by the proofs. -/
structure GCMTag where
  key : List Nat
  iv : List Nat
  ct : List Nat
deriving DecidableEq, Repr

/-- Output of `aesGCM.Seal`: ciphertext with the appended authentication
tag. -/
structure GCMSealed where
  ct : List Nat
  tag : GCMTag
deriving DecidableEq, Repr

/-- Modelled from the spec: the AES-CTR keystream byte at position `i` under
`key` and nonce `iv` (external AES).  Any deterministic function works for
the symbolic model; GCM uses the block cipher only in the forward
direction. -/
def gcmKeystream (key iv : List Nat) (i : Nat) : Nat :=
  (key.foldl (· + ·) 0 + iv.foldl (· + ·) 0 + i) % 256

/-- CTR-mode core of GCM: XOR the data with the keystream starting at
counter position `i`.  Encryption and decryption are the same operation. -/
def gcmCTR (key iv : List Nat) : Nat → List Nat → List Nat
  | _, [] => []
  | i, b :: rest => (b ^^^ gcmKeystream key iv i) :: gcmCTR key iv (i + 1) rest

/-- Modelled from the spec: `aesGCM.Seal(nil, iv, plaintext, nil)`
(external): CTR-encrypt and append the authentication tag. -/
def gcmSeal (key iv pt : List Nat) : GCMSealed :=
  { ct := gcmCTR key iv 0 pt, tag := ⟨key, iv, gcmCTR key iv 0 pt⟩ }

/-- Modelled from the spec: `aesGCM.Open(nil, iv, ciphertext, nil)`
(external): verify the tag against the presented key, nonce and ciphertext;
only on success CTR-decrypt.  Returns `none` (no plaintext at all) on tag
verification failure. -/
def gcmOpen (key iv : List Nat) (s : GCMSealed) : Option (List Nat) :=
  if s.tag = ⟨key, iv, s.ct⟩ then some (gcmCTR key iv 0 s.ct) else none

/-- src/keystore/encrypt.go `CipherParamsJSON`. -/
structure CipherParamsJSON where
  iv : List Nat
deriving DecidableEq, Repr

/-- The KDF parameters EncryptKey writes into `KDFParams` (in the source a
`map[string]interface{}` holding exactly these four keys). -/
structure KDFParamsJSON where
  c : Nat
  dklen : Nat
  prf : String
  salt : List Nat
deriving DecidableEq, Repr

/-- src/keystore/encrypt.go `CryptoJSON`. -/
structure CryptoJSON where
  cipher : String
  cipherText : GCMSealed
  cipherParams : CipherParamsJSON
  kdf : String
  kdfParams : KDFParamsJSON
  mac : List Nat
deriving DecidableEq, Repr

/-- src/keystore/encrypt.go `EncryptedKey`. -/
structure EncryptedKey where
  address : String
  crypto : CryptoJSON
  version : Nat
  id : String
deriving DecidableEq, Repr

/-- Modelled from the spec: go-ethereum
`crypto.PubkeyToAddress(crypto.ToECDSA(pk).PublicKey).Hex()` (external):
a deterministic address string derived from the private-key bytes. -/
def pubAddressModel (pk : List Nat) : String :=
  bytesToHex (keccak256Model pk)

/-- src/keystore/encrypt.go `EncryptKey`.  The random 32-byte `salt` and
12-byte `iv` drawn from `rand.Reader` are passed in explicitly; with the
randomness supplied, the Go function's only failure paths (exhausted
randomness) are gone, so the embedding is total. -/
def encryptKey (privateKey : List Nat) (password : String) (salt iv : List Nat) :
    EncryptedKey :=
  let derivedKey := deriveKey password salt
  let sealed := gcmSeal derivedKey iv privateKey
  { address := pubAddressModel privateKey
    crypto :=
      { cipher := "aes-256-gcm"
        cipherText := sealed
        cipherParams := { iv := iv }
        kdf := "pbkdf2"
        kdfParams := { c := 262144, dklen := 32, prf := "hmac-sha256", salt := salt }
        mac := keccak256Model (derivedKey.drop 16 ++ sealed.ct ++ sealed.tag.key ++
                 sealed.tag.iv ++ sealed.tag.ct) }
    version := 3
    id := bytesToHex (keccak256Model (strBytes ("GoSignerVaultCLI"))) }

/-- Big-endian byte-list to natural number (`new(big.Int).SetBytes`). -/
def beBytesToNat (l : List Nat) : Nat := l.foldl (fun acc b => acc * 256 + b) 0

/-- Big-endian fixed-width serialization of a natural number
(`math.PaddedBigBytes(d, 32)` for width 32). -/
def natToBeBytes : Nat → Nat → List Nat
  | 0, _ => []
  | w + 1, n => natToBeBytes w (n / 256) ++ [n % 256]

/-- Order of the secp256k1 group (go-ethereum `crypto.secp256k1N`). -/
def secp256k1N : Nat :=
  115792089237316195423570985008687907852837564279074904382605163141518161494337

/-- A parsed secp256k1 private key: its scalar `D`. -/
structure PrivKey where
  d : Nat
deriving DecidableEq, Repr

/-- Modelled from the spec: go-ethereum `crypto.ToECDSA` (external, strict
mode): the bytes must be exactly 32 long and encode a scalar `d` with
`0 < d < secp256k1N`; otherwise the conversion fails. -/
def toECDSAModel (b : List Nat) : Option PrivKey :=
  if b.length = 32 then
    if beBytesToNat b = 0 then none
    else if secp256k1N ≤ beBytesToNat b then none
    else some ⟨beBytesToNat b⟩
  else none

/-- go-ethereum `crypto.FromECDSA`: 32-byte big-endian serialization of the
private scalar. -/
def fromECDSA (k : PrivKey) : List Nat := natToBeBytes 32 k.d

/-- Failure cases of `DecryptKey`.  `authenticationFailed` is the
"failed to decrypt key" path (GCM tag verification failed);
`invalidKeyMaterial` is the "failed to convert to private key" path.  The
hex/salt parse failures of the source are transport errors elided together
with the hex codec. -/
inductive DecryptError where
  | authenticationFailed
  | invalidKeyMaterial
deriving DecidableEq, Repr

/-- src/keystore/encrypt.go `DecryptKey`: read the salt from the KDF
parameters, re-derive the key, GCM-open the ciphertext, and convert the
plaintext to a secp256k1 private key. -/
def decryptKey (key : EncryptedKey) (password : String) :
    Except DecryptError PrivKey :=
  let salt := key.crypto.kdfParams.salt
  let derivedKey := deriveKey password salt
  let iv := key.crypto.cipherParams.iv
  match gcmOpen derivedKey iv key.crypto.cipherText with
  | none => .error .authenticationFailed
  | some plaintext =>
    match toECDSAModel plaintext with
    | none => .error .invalidKeyMaterial
    | some k => .ok k

/-!  Batch signer (src/unnamed/part_002, package core). -/

/-- core `Transaction` (src/core/signer.go): the fields of an unsigned
Ethereum transaction.  `*big.Int` fields become `Int`, `*common.Address`
becomes `Option (List Nat)`. -/
structure Transaction where
  nonce : Nat
  gasPrice : Int
  gasLimit : Nat
  toAddr : Option (List Nat)
  value : Int
  data : List Nat
  chainID : Int
deriving DecidableEq, Repr

/-- The `BatchSignResult` struct (src/unnamed/part_002): `Signature []byte` becomes
`Option (List Nat)` (`none` is Go's nil slice), `Error string` with `""`
meaning no error, matching the struct's zero value. -/
structure BatchSignResult where
  transactionID : String
  signature : Option (List Nat)
  error : String
deriving DecidableEq, Repr

/-- The zero value a fresh `make([]BatchSignResult, n)` slot holds. -/
def defaultResult : BatchSignResult := ⟨"", none, ""⟩

/-- The body of one `SignBatch` goroutine for index `index` and transaction
`transaction`: build the result with `TransactionID = "tx_<index>"`, then
either record the signature or the error string.  The wallet's
`SignTransaction` method has no definition under src/, so it is a function
parameter `sign` (success bytes or error string). -/
def signOne (sign : Transaction → Except String (List Nat)) (index : Nat)
    (transaction : Transaction) : BatchSignResult :=
  match sign transaction with
  | .error e => { transactionID := "tx_" ++ toString index, signature := none, error := e }
  | .ok s => { transactionID := "tx_" ++ toString index, signature := some s, error := "" }

/-- The (index, result) pair goroutine `i` sends on the result channel. -/
def workOf (sign : Transaction → Except String (List Nat)) (txs : List Transaction)
    (i : Nat) : BatchSignResult :=
  match txs[i]? with
  | some t => signOne sign i t
  | none => defaultResult

/-- src/unnamed/part_002 `SignBatch`: results slice of length `len(txs)`
initialized with zero values; the channel delivers each goroutine's
`(index, result)` pair once, in an arbitrary completion order `order`
(a permutation of the indices); each delivery stores `results[index] =
result`. -/
def signBatch (sign : Transaction → Except String (List Nat))
    (txs : List Transaction) (order : List Nat) : List BatchSignResult :=
  order.foldl (fun acc i => acc.set i (workOf sign txs i))
    (List.replicate txs.length defaultResult)

/-!  Transaction monitor (src/tx/transaction.go). -/

/-- Outcome of one `client.TransactionReceipt` poll, as the loop in
`monitorTransaction` distinguishes them: the "not found" error, any other
query error, or a receipt (`failed` is `receipt.Status ==
types.ReceiptStatusFailed`). -/
inductive PollResult where
  | notFound
  | queryError (msg : String)
  | receipt (failed : Bool) (blockNum gasUsed : Nat)
deriving DecidableEq, Repr

/-- The four values `TransactionStatus.Status` takes. -/
inductive TxState where
  | pending
  | success
  | failed
  | error
deriving DecidableEq, Repr

/-- src/tx/transaction.go `TransactionStatus` (hash and timestamp fields
elided; the timestamp is wall-clock I/O). -/
structure TransactionStatus where
  status : TxState
  blockNum : Nat
  gasUsed : Nat
  errMsg : String
deriving DecidableEq, Repr

/-- The status `MonitorTransaction` registers before the polling loop
starts. -/
def initialStatus : TransactionStatus := ⟨.pending, 0, 0, ""⟩

/-- src/tx/transaction.go `monitorTransaction`'s polling loop, run over the
sequence of poll outcomes the ledger returns: "not found" re-polls, any
other outcome writes the terminal status via `updateStatus` (which also
dispatches the hash's callbacks once) and returns.  The result is the final
status together with the number of `updateStatus` invocations (= callback
dispatch rounds).  An exhausted outcome list models a loop still pending
(or cancelled), with no status write. -/
def monitorRun : List PollResult → TransactionStatus × Nat
  | [] => (initialStatus, 0)
  | p :: rest =>
    match p with
    | .notFound => monitorRun rest
    | .queryError m => (⟨.error, 0, 0, m⟩, 1)
    | .receipt failed bn gu =>
      (⟨if failed then .failed else .success, bn, gu, ""⟩, 1)

/-- src/tx/transaction.go `MonitorTransaction`'s registration guard: a hash
already present in the statuses map (it is never removed, also after a
terminal state) is refused, so no second polling loop ever starts for it.
The map is modelled by its key set. -/
def monitorTransactionStart (statuses : List Nat) (hash : Nat) :
    Except String (List Nat) :=
  if hash ∈ statuses then .error ("transaction already being monitored")
  else .ok (hash :: statuses)

/-!  Persistence traces (src/keystore/keystore.go `SaveKey`,
src/tx/history.go `save`). -/

/-- A file-system operation issued by the code, with path, payload and
permission bits as the call sites pass them. -/
inductive FsOp where
  | mkdirAll (path : String) (perm : Nat)
  | writeFile (path : String) (data : List Nat) (perm : Nat)
  | rename (src dst : String)
deriving DecidableEq, Repr

/-- Whether an operation is an `os.Rename`. -/
def FsOp.isRename : FsOp → Bool
  | .rename _ _ => true
  | _ => false

/-- Modelled from the spec: `json.MarshalIndent` of an `EncryptedKey`
(external library).  A deterministic byte encoding of the record's fields;
the persistence claims depend only on the operation sequence, paths and
permission bits, not on the marshalled text. -/
def encodeKeyJSON (k : EncryptedKey) : List Nat :=
  strBytes k.address ++ strBytes k.crypto.cipher ++ k.crypto.cipherText.ct ++
    k.crypto.cipherParams.iv ++ strBytes k.crypto.kdf ++ k.crypto.kdfParams.salt ++
    k.crypto.mac ++ [k.version] ++ strBytes k.id

/-- src/tx/history.go `TransactionRecord` (timestamp as an abstract
instant). -/
structure TransactionRecord where
  hash : Nat
  sender : String
  receiver : String
  value : String
  gasUsed : Nat
  gasPrice : String
  blockNumber : Nat
  status : String
  timestamp : Nat
  data : String
  errMsg : String
deriving DecidableEq, Repr

/-- Modelled from the spec: `json.MarshalIndent` of the history map
(external library); deterministic encoding of the record set. -/
def encodeHistoryJSON (records : List (Nat × TransactionRecord)) : List Nat :=
  records.foldr
    (fun p acc =>
      p.1 :: (strBytes p.2.sender ++ strBytes p.2.receiver ++ strBytes p.2.status ++
        [p.2.gasUsed, p.2.blockNumber, p.2.timestamp] ++ acc)) []

/-- Splitting a character list at the path separator. -/
def splitSlash : List Char → List (List Char)
  | [] => [[]]
  | c :: rest =>
    match splitSlash rest with
    | [] => [[]]
    | h :: t => if c = '/' then [] :: h :: t else (c :: h) :: t

/-- Joining path components with the separator. -/
def joinSlash : List (List Char) → List Char
  | [] => []
  | [x] => x
  | x :: y :: t => x ++ '/' :: joinSlash (y :: t)

/-- Model of `filepath.Dir` for slash-separated paths: everything before
the last separator, `"."` when there is none. -/
def dirOf (p : String) : String :=
  let parts := splitSlash p.data
  if parts.length ≤ 1 then "." else String.mk (joinSlash parts.dropLast)

/-- src/keystore/keystore.go `SaveKey`: the exact file-system operations it
issues — a single `os.WriteFile` of the marshalled record straight to the
final path `<dir>/<name>.json` with mode 0600.  (`filepath.Join` rendered as
slash concatenation.) -/
def saveKeyOps (keystoreDir : String) (k : EncryptedKey) (name : String) : List FsOp :=
  [FsOp.writeFile (keystoreDir ++ "/" ++ name ++ ".json") (encodeKeyJSON k) 0o600]

/-- src/tx/history.go `save`: the exact file-system operations it issues —
`os.MkdirAll` on the parent directory, then a single `os.WriteFile` of the
marshalled record set straight to the final path with mode 0600. -/
def historySaveOps (filePath : String) (records : List (Nat × TransactionRecord)) :
    List FsOp :=
  [FsOp.mkdirAll (dirOf filePath) 0o700,
   FsOp.writeFile filePath (encodeHistoryJSON records) 0o600]

/-!  Transaction history store (src/tx/history.go). -/

/-- What `client.TransactionByHash` returns when it succeeds: the fields
`AddTransaction` reads off the transaction, plus the pending flag. -/
structure TxInfo where
  sender : String
  receiver : String
  value : String
  gasPrice : String
  data : String
deriving DecidableEq, Repr

/-- What `client.TransactionReceipt` returns when it succeeds:
`Status == types.ReceiptStatusFailed` as a flag, block number, gas used. -/
structure Receipt where
  failed : Bool
  blockNumber : Nat
  gasUsed : Nat
deriving DecidableEq, Repr

/-- The history store's state: the in-memory map `records` (as an
association list keyed by hash) and the current contents of the history
file (`none` until a save has succeeded). -/
structure HistoryState where
  records : List (Nat × TransactionRecord)
  file : Option (List Nat)
deriving DecidableEq, Repr

/-- Failures of `AddTransaction`, by source. -/
inductive HistErr where
  | fetchFailed (msg : String)
  | receiptFailed (msg : String)
  | ioError
deriving DecidableEq, Repr

/-- Go map assignment `h.records[hash] = record` on the association-list
model: replace any existing binding for `hash`. -/
def recordsInsert (records : List (Nat × TransactionRecord)) (hash : Nat)
    (r : TransactionRecord) : List (Nat × TransactionRecord) :=
  (hash, r) :: records.filter (fun p => p.1 ≠ hash)

/-- The record `AddTransaction` builds from the fetched transaction and the
optional receipt. -/
def buildRecord (hash : Nat) (info : TxInfo) (receipt : Option Receipt)
    (now : Nat) : TransactionRecord :=
  let base : TransactionRecord :=
    { hash := hash, sender := info.sender, receiver := info.receiver,
      value := info.value, gasUsed := 0, gasPrice := info.gasPrice,
      blockNumber := 0, status := "", timestamp := now, data := info.data,
      errMsg := "" }
  match receipt with
  | some r =>
    { base with
      gasUsed := r.gasUsed
      blockNumber := r.blockNumber
      status := if r.failed then "failed" else "success" }
  | none => { base with status := "pending" }

/-- src/tx/history.go `save`, on the state model: on I/O success the file
now holds the marshalled current record set; on I/O failure the state is
unchanged and `IOError` is reported.  The I/O outcome `saveOk` is an
explicit parameter. -/
def historySave (st : HistoryState) (saveOk : Bool) : Except HistErr HistoryState :=
  if saveOk then .ok { st with file := some (encodeHistoryJSON st.records) }
  else .error .ioError

/-- src/tx/history.go `AddTransaction`: fetch the transaction (outcome
`txRes`, with its pending flag), fetch the receipt when not pending
(outcome `receiptRes`), build the record, insert it into the in-memory map,
then call `save`.  Returns the Go function's error result paired with the
state the store is left in. -/
def addTransaction (st : HistoryState) (hash : Nat)
    (txRes : Except String (TxInfo × Bool)) (receiptRes : Except String Receipt)
    (now : Nat) (saveOk : Bool) : Option HistErr × HistoryState :=
  match txRes with
  | .error m => (some (.fetchFailed m), st)
  | .ok (info, isPending) =>
    let receiptStep : Except String (Option Receipt) :=
      if isPending then .ok none
      else match receiptRes with
        | .error m => .error m
        | .ok r => .ok (some r)
    match receiptStep with
    | .error m => (some (.receiptFailed m), st)
    | .ok receipt =>
      let st1 : HistoryState :=
        { st with records := recordsInsert st.records hash (buildRecord hash info receipt now) }
      match historySave st1 saveOk with
      | .ok st2 => (none, st2)
      | .error e => (some e, st1)

/-!  Helper lemmas. -/

/-- CTR mode is an involution: XOR-ing with the same keystream twice gives
the data back. -/
theorem gcmCTR_involution (key iv : List Nat) (i : Nat) (l : List Nat) :
    gcmCTR key iv i (gcmCTR key iv i l) = l := by
  induction l generalizing i with
  | nil => rfl
  | cons b rest ih => simp [gcmCTR, Nat.xor_cancel_right, ih]

/-- Opening a sealed message with the sealing key and nonce returns the
plaintext. -/
theorem gcmOpen_gcmSeal (key iv pt : List Nat) :
    gcmOpen key iv (gcmSeal key iv pt) = some pt := by
  simp [gcmOpen, gcmSeal, gcmCTR_involution]

/-- Character code points determine the character. -/
theorem charToNat_injective : Function.Injective Char.toNat := by
  intro a b h
  exact Char.eq_of_val_eq (UInt32.ext h)

/-- Distinct strings have distinct byte lists. -/
theorem strBytes_injective : Function.Injective strBytes := by
  intro a b h
  have hd : a.data = b.data :=
    List.map_injective_iff.mpr charToNat_injective h
  cases a; cases b; simp_all

/-- In the ideal-hash model, distinct passwords derive distinct keys for
the same salt. -/
theorem deriveKey_password_inj (p q : String) (salt : List Nat)
    (h : deriveKey p salt = deriveKey q salt) : p = q := by
  unfold deriveKey sha256Model at h
  have h2 : strBytes p ++ salt = strBytes q ++ salt := by
    simpa using h
  exact strBytes_injective (List.append_cancel_right h2)

/-- Serializing a big-endian value back to its fixed width reproduces the
original bytes. -/
theorem natToBeBytes_beBytesToNat (l : List Nat) (hb : ∀ b ∈ l, b < 256) :
    natToBeBytes l.length (beBytesToNat l) = l := by
  induction l using List.reverseRecOn with
  | nil => rfl
  | append_singleton l b ih =>
    have hb' : ∀ x ∈ l, x < 256 := fun x hx => hb x (List.mem_append_left _ hx)
    have hbb : b < 256 := hb b (by simp)
    have hval : beBytesToNat (l ++ [b]) = beBytesToNat l * 256 + b := by
      simp [beBytesToNat, List.foldl_append]
    have hlen : (l ++ [b]).length = l.length + 1 := by simp
    rw [hval, hlen]
    show natToBeBytes l.length ((beBytesToNat l * 256 + b) / 256) ++
        [(beBytesToNat l * 256 + b) % 256] = l ++ [b]
    have hdiv : (beBytesToNat l * 256 + b) / 256 = beBytesToNat l := by omega
    have hmod : (beBytesToNat l * 256 + b) % 256 = b := by omega
    rw [hdiv, hmod, ih hb']

/-- Whenever GCM tag verification fails, `DecryptKey` reports
authentication failure and nothing else happens. -/
theorem decryptKey_of_open_none (r : EncryptedKey) (pw : String)
    (h : gcmOpen (deriveKey pw r.crypto.kdfParams.salt) r.crypto.cipherParams.iv
      r.crypto.cipherText = none) :
    decryptKey r pw = .error .authenticationFailed := by
  simp [decryptKey, h]

/-- A record with its sealed ciphertext field replaced (the other fields
unchanged): how a tampered record enters `DecryptKey`. -/
def withSealed (r : EncryptedKey) (s : GCMSealed) : EncryptedKey :=
  { r with crypto := { r.crypto with cipherText := s } }

/-!  Claim theorems: keystore encryption. -/

/-- C1: the record metadata written by `EncryptKey` declares the KDF
`pbkdf2` with iteration count 262144 and PRF hmac-sha256, yet the symmetric
key actually used by `EncryptKey` and `DecryptKey` is one single SHA-256
invocation over password‖salt (`deriveKey`) — not the declared iterated
KDF.  This exhibits the divergence the claim is about. -/
theorem kdf_metadata_mismatch (pk : List Nat) (pw : String) (salt iv : List Nat) :
    (encryptKey pk pw salt iv).crypto.kdf = "pbkdf2" ∧
    (encryptKey pk pw salt iv).crypto.kdfParams.c = 262144 ∧
    (encryptKey pk pw salt iv).crypto.kdfParams.prf = "hmac-sha256" ∧
    (encryptKey pk pw salt iv).crypto.kdfParams.dklen = 32 ∧
    deriveKey pw salt = sha256Model (strBytes pw ++ salt) :=
  ⟨rfl, rfl, rfl, rfl, rfl⟩

/-- C9: every record produced by `EncryptKey` carries the same constant ID
(the hex of Keccak-256 of "GoSignerVaultCLI"), independent of the key,
password and randomness, and declares version 3, cipher aes-256-gcm and
kdf pbkdf2. -/
theorem encryptKey_constant_metadata (pk : List Nat) (pw : String) (salt iv : List Nat) :
    (encryptKey pk pw salt iv).id
        = bytesToHex (keccak256Model (strBytes ("GoSignerVaultCLI"))) ∧
    (encryptKey pk pw salt iv).version = 3 ∧
    (encryptKey pk pw salt iv).crypto.cipher = "aes-256-gcm" ∧
    (encryptKey pk pw salt iv).crypto.kdf = "pbkdf2" ∧
    ∀ pk2 pw2 salt2 iv2,
      (encryptKey pk2 pw2 salt2 iv2).id = (encryptKey pk pw salt iv).id :=
  ⟨rfl, rfl, rfl, rfl, fun _ _ _ _ => rfl⟩

/-- C2 counterexample: the round trip fails for a plaintext secret that is
not valid secp256k1 key material.  Encrypting the one-byte secret 0x01
under password "pw" and then decrypting with the same password does not
return the secret: `DecryptKey` rejects the recovered plaintext (wrong
length for a private key) and errors out. -/
theorem roundtrip_invalid_secret_cx :
    decryptKey (encryptKey [1] ("pw") (List.replicate 32 0) (List.replicate 12 0)) ("pw")
      = .error .invalidKeyMaterial := by
  rfl

/-- C2 (amended): for every plaintext secret that is valid secp256k1
private-key material (32 bytes, value strictly between 0 and the curve
order) and every password, decrypting the record produced by `EncryptKey`
with the same password returns the key whose 32-byte serialization is
exactly the original secret bytes. -/
theorem decrypt_encrypt_roundtrip (secret : List Nat) (pw : String) (salt iv : List Nat)
    (hlen : secret.length = 32) (hbytes : ∀ b ∈ secret, b < 256)
    (hpos : 0 < beBytesToNat secret) (hlt : beBytesToNat secret < secp256k1N) :
    decryptKey (encryptKey secret pw salt iv) pw = .ok ⟨beBytesToNat secret⟩ ∧
    fromECDSA ⟨beBytesToNat secret⟩ = secret := by
  have h2 : ¬ beBytesToNat secret = 0 := by omega
  have h3 : ¬ secp256k1N ≤ beBytesToNat secret := by omega
  have hto : toECDSAModel secret = some ⟨beBytesToNat secret⟩ := by
    simp [toECDSAModel, hlen, h2, h3]
  constructor
  · simp [decryptKey, encryptKey, gcmOpen_gcmSeal, hto]
  · show natToBeBytes 32 (beBytesToNat secret) = secret
    rw [← hlen]
    exact natToBeBytes_beBytesToNat secret hbytes

/-- Witness for C2's amended round trip at the concrete secret 0x0101…01
(32 bytes), password "pw", and fixed salt and nonce. -/
theorem decrypt_encrypt_roundtrip_witness :
    ((List.replicate 32 1 : List Nat).length = 32 ∧
      (∀ b ∈ (List.replicate 32 1 : List Nat), b < 256) ∧
      0 < beBytesToNat (List.replicate 32 1) ∧
      beBytesToNat (List.replicate 32 1) < secp256k1N) ∧
    decryptKey (encryptKey (List.replicate 32 1) ("pw") (List.replicate 32 2)
        (List.replicate 12 3)) ("pw")
      = .ok ⟨beBytesToNat (List.replicate 32 1)⟩ ∧
    fromECDSA ⟨beBytesToNat (List.replicate 32 1)⟩ = List.replicate 32 1 :=
  ⟨⟨by decide, by decide, by decide, by decide⟩,
    decrypt_encrypt_roundtrip (List.replicate 32 1) ("pw") (List.replicate 32 2)
      (List.replicate 12 3) (by decide) (by decide) (by decide) (by decide)⟩

/-- C3 counterexample: the claim quantifies over every password and every
alteration of the ciphertext or tag, but an altered tag that is exactly the
valid authenticator of the record's ciphertext under a *different*
password's derived key is accepted when decrypting with that password.
Concretely: encrypt the 32-byte secret 0x0101…01 under password "a";
replace the tag by the tag of the same ciphertext under the key derived
from the wrong password "b" (every ingredient — salt, nonce, ciphertext —
is a public field of the record, in the real scheme exactly as here); then
decrypting with "b" passes tag verification and returns a (wrong) private
key instead of failing with `AuthenticationFailed`. -/
theorem decrypt_forged_tag_cx :
    (⟨deriveKey ("b") [7], [8],
        (encryptKey (List.replicate 32 1) ("a") [7] [8]).crypto.cipherText.ct⟩ : GCMTag)
      ≠ (encryptKey (List.replicate 32 1) ("a") [7] [8]).crypto.cipherText.tag ∧
    ("b" : String) ≠ ("a" : String) ∧
    (decryptKey (withSealed (encryptKey (List.replicate 32 1) ("a") [7] [8])
        ⟨(encryptKey (List.replicate 32 1) ("a") [7] [8]).crypto.cipherText.ct,
          ⟨deriveKey ("b") [7], [8],
            (encryptKey (List.replicate 32 1) ("a") [7] [8]).crypto.cipherText.ct⟩⟩)
        ("b")).isOk = true :=
  ⟨by decide, by decide, rfl⟩

/-- C3 (amended): decryption fails closed with `AuthenticationFailed`,
returning no plaintext, in every case except the forged-tag one the
counterexample exhibits: (1) altering the record's ciphertext makes
`DecryptKey` fail for EVERY password, the correct one included; (2)
altering the record's tag makes `DecryptKey` fail for every password whose
derived key the altered tag does not authenticate — instantiated at the
correct password this is exactly "any altered tag is rejected", since the
only tag the correct derived key accepts is the original one; (3) a wrong
password on the unaltered record fails the same way (the hash is
collision-free in the symbolic model, so a wrong password always yields a
different derived key).  A single bit flip lands in exactly one of the two
regions of the sealed blob, so (1) and (2) between them cover every bit
flip. -/
theorem decrypt_tamper_wrong_password_rejection (secret : List Nat) (pw pw2 : String)
    (salt iv : List Nat) :
    (∀ (q : String) (ct2 : List Nat),
      ct2 ≠ (encryptKey secret pw salt iv).crypto.cipherText.ct →
      decryptKey (withSealed (encryptKey secret pw salt iv)
          ⟨ct2, (encryptKey secret pw salt iv).crypto.cipherText.tag⟩) q
        = .error .authenticationFailed) ∧
    (∀ (q : String) (tg2 : GCMTag),
      tg2 ≠ ⟨deriveKey q salt, iv, (encryptKey secret pw salt iv).crypto.cipherText.ct⟩ →
      decryptKey (withSealed (encryptKey secret pw salt iv)
          ⟨(encryptKey secret pw salt iv).crypto.cipherText.ct, tg2⟩) q
        = .error .authenticationFailed) ∧
    (pw2 ≠ pw →
      decryptKey (encryptKey secret pw salt iv) pw2 = .error .authenticationFailed) := by
  refine ⟨fun q ct2 h => ?_, fun q tg2 h => ?_, fun h => ?_⟩
  · apply decryptKey_of_open_none
    simp only [withSealed, encryptKey, gcmSeal] at h ⊢
    simp only [gcmOpen]
    rw [if_neg]
    intro he
    have hct : gcmCTR (deriveKey pw salt) iv 0 secret = ct2 := by
      simpa using congrArg GCMTag.ct he
    exact h hct.symm
  · apply decryptKey_of_open_none
    simp only [withSealed, encryptKey, gcmSeal] at h ⊢
    simp only [gcmOpen]
    rw [if_neg]
    exact h
  · apply decryptKey_of_open_none
    simp only [encryptKey, gcmSeal]
    simp only [gcmOpen]
    rw [if_neg]
    intro he
    have hk : deriveKey pw salt = deriveKey pw2 salt := by
      simpa using congrArg GCMTag.key he
    exact h (deriveKey_password_inj pw2 pw salt hk.symm)

/-- Witness for C3's amended rejection at a concrete record (secret 0x0506,
password "a"): a truncated ciphertext is rejected under the wrong password
"b" AND under the correct password "a"; a zeroed tag is rejected under the
correct password; and the wrong password on the intact record is
rejected. -/
theorem decrypt_tamper_wrong_password_rejection_witness :
    (([] : List Nat) ≠ (encryptKey [5, 6] ("a") [7] [8]).crypto.cipherText.ct ∧
      (⟨[], [], []⟩ : GCMTag)
        ≠ (⟨deriveKey ("a") [7], [8],
            (encryptKey [5, 6] ("a") [7] [8]).crypto.cipherText.ct⟩ : GCMTag) ∧
      ("b" : String) ≠ ("a" : String)) ∧
    decryptKey (withSealed (encryptKey [5, 6] ("a") [7] [8])
        ⟨[], (encryptKey [5, 6] ("a") [7] [8]).crypto.cipherText.tag⟩) ("b")
      = .error .authenticationFailed ∧
    decryptKey (withSealed (encryptKey [5, 6] ("a") [7] [8])
        ⟨[], (encryptKey [5, 6] ("a") [7] [8]).crypto.cipherText.tag⟩) ("a")
      = .error .authenticationFailed ∧
    decryptKey (withSealed (encryptKey [5, 6] ("a") [7] [8])
        ⟨(encryptKey [5, 6] ("a") [7] [8]).crypto.cipherText.ct, ⟨[], [], []⟩⟩) ("a")
      = .error .authenticationFailed ∧
    decryptKey (encryptKey [5, 6] ("a") [7] [8]) ("b")
      = .error .authenticationFailed := by
  have h := decrypt_tamper_wrong_password_rejection [5, 6] ("a") ("b") [7] [8]
  exact ⟨⟨by decide, by decide, by decide⟩,
    h.1 ("b") [] (by decide), h.1 ("a") [] (by decide),
    h.2.1 ("a") ⟨[], [], []⟩ (by decide), h.2.2 (by decide)⟩

/-- C10: on any input whose decrypted plaintext is not valid secp256k1
private-key material, `DecryptKey` fails even with the correct password:
tag verification succeeds (the GCM open returns the plaintext), but the
key-material conversion then rejects it and an error, not the plaintext,
is returned. -/
theorem decrypt_validates_key_material (secret : List Nat) (pw : String)
    (salt iv : List Nat) (h : toECDSAModel secret = none) :
    gcmOpen (deriveKey pw salt) iv (encryptKey secret pw salt iv).crypto.cipherText
      = some secret ∧
    decryptKey (encryptKey secret pw salt iv) pw = .error .invalidKeyMaterial := by
  constructor
  · show gcmOpen (deriveKey pw salt) iv (gcmSeal (deriveKey pw salt) iv secret)
      = some secret
    exact gcmOpen_gcmSeal (deriveKey pw salt) iv secret
  · simp [decryptKey, encryptKey, gcmOpen_gcmSeal, h]

/-- Witness for C10 at the all-zero 32-byte secret (not a valid scalar):
decryption with the correct password fails after successful tag
verification. -/
theorem decrypt_validates_key_material_witness :
    toECDSAModel (List.replicate 32 0) = none ∧
    decryptKey (encryptKey (List.replicate 32 0) ("hunter2") [9] [10]) ("hunter2")
      = .error .invalidKeyMaterial :=
  ⟨by decide,
    (decrypt_validates_key_material (List.replicate 32 0) ("hunter2") [9] [10]
      (by decide)).2⟩

/-!  Claim theorems: batch signer. -/

/-- Collecting indexed results into a slice preserves its length. -/
theorem collect_foldl_length (w : Nat → BatchSignResult) (l : List Nat)
    (acc : List BatchSignResult) :
    (l.foldl (fun a i => a.set i (w i)) acc).length = acc.length := by
  induction l generalizing acc with
  | nil => rfl
  | cons i tl ih =>
    rw [List.foldl_cons, ih, List.length_set]

/-- After collecting, every index that appears in the delivery order (or
that already held its final value) holds its own work item's result. -/
theorem collect_foldl_get (w : Nat → BatchSignResult) :
    ∀ (l : List Nat) (acc : List BatchSignResult) (j : Nat),
      j < acc.length → (j ∈ l ∨ acc[j]? = some (w j)) →
      (l.foldl (fun a i => a.set i (w i)) acc)[j]? = some (w j) := by
  intro l
  induction l with
  | nil =>
    intro acc j hj hmem
    rcases hmem with h | h
    · exact absurd h (List.not_mem_nil j)
    · simpa using h
  | cons i tl ih =>
    intro acc j hj hmem
    rw [List.foldl_cons]
    apply ih
    · simpa [List.length_set] using hj
    · rcases hmem with h | h
      · rcases List.mem_cons.mp h with rfl | h2
        · right
          exact List.getElem?_set_self hj
        · left
          exact h2
      · by_cases hij : i = j
        · subst hij
          right
          exact List.getElem?_set_self hj
        · right
          rw [List.getElem?_set_ne hij]
          exact h

/-- Index positions below the request count are exactly the indices the
goroutines deliver, whatever the completion order. -/
theorem mem_order_of_perm {order : List Nat} {n j : Nat}
    (hperm : order.Perm (List.range n)) (hj : j < n) : j ∈ order :=
  hperm.mem_iff.mpr (List.mem_range.mpr hj)

/-- C4: for every input sequence of transactions and every completion order
of the concurrent signing goroutines, `SignBatch` returns exactly one
result per request, and the result at position i is the outcome of signing
the request at position i. -/
theorem signBatch_ordered_complete (sign : Transaction → Except String (List Nat))
    (txs : List Transaction) (order : List Nat)
    (hperm : order.Perm (List.range txs.length)) :
    (signBatch sign txs order).length = txs.length ∧
    ∀ i t, txs[i]? = some t →
      (signBatch sign txs order)[i]? = some (signOne sign i t) := by
  constructor
  · unfold signBatch
    rw [collect_foldl_length, List.length_replicate]
  · intro i t ht
    have hi : i < txs.length := (List.getElem?_eq_some.mp ht).1
    have hw : workOf sign txs i = signOne sign i t := by
      unfold workOf
      rw [ht]
    unfold signBatch
    rw [← hw]
    apply collect_foldl_get
    · simpa [List.length_replicate] using hi
    · exact Or.inl (mem_order_of_perm hperm hi)

/-- C5: per-item failure isolation.  For every request index i, whatever
the completion order of the other goroutines: if signing request i fails
with error e, results[i] records exactly that error and no signature; if it
succeeds, results[i] records exactly the signature and an empty error; and
no result ever carries both a signature and an error. -/
theorem signBatch_isolation (sign : Transaction → Except String (List Nat))
    (txs : List Transaction) (order : List Nat)
    (hperm : order.Perm (List.range txs.length)) :
    ∀ (i : Nat) (t : Transaction), txs[i]? = some t →
      (∀ e, sign t = .error e →
        (signBatch sign txs order)[i]?
          = some (⟨"tx_" ++ toString i, none, e⟩ : BatchSignResult)) ∧
      (∀ s, sign t = .ok s →
        (signBatch sign txs order)[i]?
          = some (⟨"tx_" ++ toString i, some s, ""⟩ : BatchSignResult)) ∧
      (∀ r : BatchSignResult, (signBatch sign txs order)[i]? = some r →
        ¬(r.signature.isSome ∧ r.error ≠ "")) := by
  intro i t ht
  have hi : i < txs.length := (List.getElem?_eq_some.mp ht).1
  have hget : (signBatch sign txs order)[i]? = some (signOne sign i t) := by
    have hw : workOf sign txs i = signOne sign i t := by
      unfold workOf
      rw [ht]
    unfold signBatch
    rw [← hw]
    apply collect_foldl_get
    · simpa [List.length_replicate] using hi
    · exact Or.inl (mem_order_of_perm hperm hi)
  refine ⟨fun e he => ?_, fun s hs => ?_, fun r hr => ?_⟩
  · rw [hget]
    unfold signOne
    rw [he]
  · rw [hget]
    unfold signOne
    rw [hs]
  · rw [hget] at hr
    have hr2 : r = signOne sign i t := by
      injection hr with h2
      exact h2.symm
    subst hr2
    unfold signOne
    cases hsign : sign t <;> simp [hsign]

/-- A transaction whose nonce tags it for the witness scenarios. -/
def txW (n : Nat) : Transaction := ⟨n, 0, 0, none, 0, [], 0⟩

/-- A signing provider for the witness scenarios: request 1 is malformed,
all others sign to the bytes 0x0909. -/
def signW : Transaction → Except String (List Nat) := fun t =>
  if t.nonce = 1 then .error ("malformed") else .ok [9, 9]

/-- The three-request batch of the witness scenarios. -/
def txsW : List Transaction := [txW 0, txW 1, txW 2]

/-- Witness for C4: three requests completed in the order 2, 0, 1 still
produce three results with results[i] the outcome of request i. -/
theorem signBatch_ordered_complete_witness :
    ([2, 0, 1] : List Nat).Perm (List.range 3) ∧
    (signBatch signW txsW [2, 0, 1]).length = 3 ∧
    (signBatch signW txsW [2, 0, 1])[0]? = some (signOne signW 0 (txW 0)) ∧
    (signBatch signW txsW [2, 0, 1])[2]? = some (signOne signW 2 (txW 2)) := by
  have h := signBatch_ordered_complete signW txsW [2, 0, 1] (by decide)
  exact ⟨by decide, h.1, h.2 0 (txW 0) (by decide), h.2 2 (txW 2) (by decide)⟩

/-- Witness for C5, the spec's concrete scenario: three requests with
request 1 malformed yield results[0] and results[2] signed with empty
error, and results[1] carrying the error and no signature. -/
theorem signBatch_isolation_witness :
    ([2, 0, 1] : List Nat).Perm (List.range 3) ∧
    txsW[1]? = some (txW 1) ∧ signW (txW 1) = .error ("malformed") ∧
    txsW[0]? = some (txW 0) ∧ signW (txW 0) = .ok [9, 9] ∧
    (signBatch signW txsW [2, 0, 1])[1]?
      = some (⟨"tx_" ++ toString 1, none, "malformed"⟩ : BatchSignResult) ∧
    (signBatch signW txsW [2, 0, 1])[0]?
      = some (⟨"tx_" ++ toString 0, some [9, 9], ""⟩ : BatchSignResult) := by
  have h := signBatch_isolation signW txsW [2, 0, 1] (by decide)
  exact ⟨by decide, by decide, rfl, by decide, rfl,
    (h 1 (txW 1) (by decide)).1 ("malformed") rfl,
    (h 0 (txW 0) (by decide)).2.1 [9, 9] rfl⟩

/-!  Claim theorems: transaction monitor. -/

/-- A polling loop that only ever sees "not found" stays pending: no status
write, no callback dispatch. -/
theorem monitorRun_all_notFound (l : List PollResult)
    (h : ∀ q ∈ l, q = PollResult.notFound) :
    monitorRun l = (initialStatus, 0) := by
  induction l with
  | nil => rfl
  | cons p tl ih =>
    have hp : p = PollResult.notFound := h p (List.mem_cons_self p tl)
    subst hp
    exact ih (fun q hq => h q (List.mem_cons_of_mem _ hq))

/-- Leading "not found" polls are transparent re-polls. -/
theorem monitorRun_skip_notFound (pre l : List PollResult)
    (h : ∀ q ∈ pre, q = PollResult.notFound) :
    monitorRun (pre ++ l) = monitorRun l := by
  induction pre with
  | nil => rfl
  | cons p tl ih =>
    have hp : p = PollResult.notFound := h p (List.mem_cons_self p tl)
    subst hp
    exact ih (fun q hq => h q (List.mem_cons_of_mem _ hq))

/-- C6: the per-hash monitor follows the claimed step relation and its
terminal states really are terminal.  A "not found" poll leaves the state
pending and re-polls; the first decisive poll moves pending to error /
failed / success with exactly one status write (hence one callback
dispatch), and every poll after it is never even consumed — the loop has
returned, so no further state change, polling or callback dispatch happens.
The registration guard refuses a hash that is already tracked, so no new
polling loop can ever be started for it either. -/
theorem monitor_terminal_state_machine (polls pre rest : List PollResult)
    (p : PollResult) (statuses : List Nat) (h : Nat) :
    ((∀ q ∈ polls, q = PollResult.notFound) → monitorRun polls = (initialStatus, 0)) ∧
    ((∀ q ∈ pre, q = PollResult.notFound) → p ≠ PollResult.notFound →
      monitorRun (pre ++ p :: rest) = monitorRun [p] ∧
      (∀ m, p = PollResult.queryError m →
        monitorRun [p] = (⟨TxState.error, 0, 0, m⟩, 1)) ∧
      (∀ bn gu, p = PollResult.receipt true bn gu →
        monitorRun [p] = (⟨TxState.failed, bn, gu, ""⟩, 1)) ∧
      (∀ bn gu, p = PollResult.receipt false bn gu →
        monitorRun [p] = (⟨TxState.success, bn, gu, ""⟩, 1))) ∧
    (h ∈ statuses → monitorTransactionStart statuses h
      = .error ("transaction already being monitored")) := by
  refine ⟨monitorRun_all_notFound polls, fun hpre hp => ?_, fun hmem => ?_⟩
  · refine ⟨?_, ?_, ?_, ?_⟩
    · rw [monitorRun_skip_notFound pre (p :: rest) hpre]
      cases p with
      | notFound => exact absurd rfl hp
      | queryError m => rfl
      | receipt f bn gu => rfl
    · intro m hm
      subst hm
      rfl
    · intro bn gu hm
      subst hm
      rfl
    · intro bn gu hm
      subst hm
      rfl
  · unfold monitorTransactionStart
    rw [if_pos hmem]

/-- Witness for C6: one "not found" re-poll, then a decisive query error;
the receipt that arrives afterwards is never consumed, and a duplicate
registration for hash 7 is refused. -/
theorem monitor_terminal_state_machine_witness :
    ((∀ q ∈ ([PollResult.notFound, PollResult.notFound] : List PollResult),
        q = PollResult.notFound) ∧
      (∀ q ∈ ([PollResult.notFound] : List PollResult), q = PollResult.notFound) ∧
      PollResult.queryError ("boom") ≠ PollResult.notFound ∧
      (7 : Nat) ∈ ([7] : List Nat)) ∧
    monitorRun [PollResult.notFound, PollResult.notFound] = (initialStatus, 0) ∧
    monitorRun ([PollResult.notFound] ++ PollResult.queryError ("boom") ::
        [PollResult.receipt false 1 1])
      = monitorRun [PollResult.queryError ("boom")] ∧
    monitorRun [PollResult.queryError ("boom")] = (⟨TxState.error, 0, 0, "boom"⟩, 1) ∧
    monitorTransactionStart [7] 7 = .error ("transaction already being monitored") := by
  have h := monitor_terminal_state_machine
    [PollResult.notFound, PollResult.notFound] [PollResult.notFound]
    [PollResult.receipt false 1 1] (PollResult.queryError ("boom")) [7] 7
  refine ⟨⟨by decide, by decide, by decide, by decide⟩,
    h.1 (by decide), ?_, ?_, h.2.2 (by decide)⟩
  · exact (h.2.1 (by decide) (by decide)).1
  · exact (h.2.1 (by decide) (by decide)).2.1 ("boom") rfl

/-!  Claim theorems: persisted writes (keystore SaveKey, history save). -/

/-- A concrete encrypted record for the persistence counterexample. -/
def keyW : EncryptedKey :=
  encryptKey (List.replicate 32 1) ("pw") (List.replicate 32 0) (List.replicate 12 0)

/-- C7 counterexample: at the concrete record `keyW` saved under the name
"mywallet" (and the empty history saved to "history.json"), the issued
file-system operations contain no rename at all, and the single write goes
directly to the final path — not to a temporary location that is then
renamed into place, contradicting the claim. -/
theorem saveKey_no_atomic_rename_cx :
    saveKeyOps (".keystore") keyW ("mywallet")
      = [FsOp.writeFile (".keystore/mywallet.json") (encodeKeyJSON keyW) 0o600] ∧
    (saveKeyOps (".keystore") keyW ("mywallet")).all (fun op => !op.isRename) = true ∧
    historySaveOps ("history.json") []
      = [FsOp.mkdirAll (".") 0o700,
         FsOp.writeFile ("history.json") (encodeHistoryJSON []) 0o600] ∧
    (historySaveOps ("history.json") []).all (fun op => !op.isRename) = true :=
  ⟨rfl, rfl, rfl, rfl⟩

/-- C7 (amended): every persisted write of a keystore record (`SaveKey`)
and of the history document (`save`) is a single direct `os.WriteFile` of
the complete marshalled content to the final path with owner-only
permissions (the history save first ensures the parent directory exists);
no temporary file and no rename is involved, so the write is not atomic
and a crash mid-write can leave a partially-written file visible to a
subsequent load. -/
theorem persist_direct_write_traces (dir : String) (k : EncryptedKey) (name : String)
    (fp : String) (records : List (Nat × TransactionRecord)) :
    saveKeyOps dir k name
      = [FsOp.writeFile (dir ++ "/" ++ name ++ ".json") (encodeKeyJSON k) 0o600] ∧
    historySaveOps fp records
      = [FsOp.mkdirAll (dirOf fp) 0o700,
         FsOp.writeFile fp (encodeHistoryJSON records) 0o600] ∧
    (saveKeyOps dir k name).all (fun op => !op.isRename) = true ∧
    (historySaveOps fp records).all (fun op => !op.isRename) = true :=
  ⟨rfl, rfl, rfl, rfl⟩

/-!  Claim theorems: history store append. -/

/-- A concrete fetched transaction for the history scenarios. -/
def infoW : TxInfo := ⟨"0xsender", "0xreceiver", "100", "5", "0x"⟩

/-- C8 counterexample: starting from an empty store, appending hash 1
(still pending, so no receipt is fetched) with the persist step failing
surfaces `ioError` to the caller — but the in-memory store is NOT left as
if the append had not happened: the new record is still in the map. -/
theorem addTransaction_retains_record_on_io_failure_cx :
    (addTransaction ⟨[], none⟩ 1 (.ok (infoW, true)) (.error ("unused")) 42 false).1
      = some HistErr.ioError ∧
    (addTransaction ⟨[], none⟩ 1 (.ok (infoW, true)) (.error ("unused")) 42 false).2.records
      ≠ (⟨[], none⟩ : HistoryState).records ∧
    List.lookup 1
        (addTransaction ⟨[], none⟩ 1 (.ok (infoW, true)) (.error ("unused")) 42 false).2.records
      = some (buildRecord 1 infoW none 42) := by
  refine ⟨rfl, by decide, rfl⟩

/-- C8 (amended): a successful return from `AddTransaction` means the
record was inserted and the history file synchronously rewritten to the
marshalled new record set before returning; a fetch failure leaves the
store untouched; and a persist failure surfaces the error to the caller,
leaves the file unchanged, but retains the newly inserted record in the
in-memory map (the append is not rolled back). -/
theorem addTransaction_persistence_contract (st : HistoryState) (hash : Nat)
    (info : TxInfo) (receiptRes : Except String Receipt) (now : Nat) :
    (addTransaction st hash (.ok (info, true)) receiptRes now true
      = (none, ⟨recordsInsert st.records hash (buildRecord hash info none now),
          some (encodeHistoryJSON
            (recordsInsert st.records hash (buildRecord hash info none now)))⟩)) ∧
    (∀ r, receiptRes = .ok r →
      addTransaction st hash (.ok (info, false)) receiptRes now true
        = (none, ⟨recordsInsert st.records hash (buildRecord hash info (some r) now),
            some (encodeHistoryJSON
              (recordsInsert st.records hash (buildRecord hash info (some r) now)))⟩)) ∧
    (addTransaction st hash (.ok (info, true)) receiptRes now false
      = (some HistErr.ioError,
          ⟨recordsInsert st.records hash (buildRecord hash info none now), st.file⟩)) ∧
    (∀ r, receiptRes = .ok r →
      addTransaction st hash (.ok (info, false)) receiptRes now false
        = (some HistErr.ioError,
            ⟨recordsInsert st.records hash (buildRecord hash info (some r) now),
              st.file⟩)) ∧
    (∀ m, ∀ ok, addTransaction st hash (.error m) receiptRes now ok
      = (some (HistErr.fetchFailed m), st)) := by
  refine ⟨rfl, fun r hr => ?_, rfl, fun r hr => ?_, fun m ok => rfl⟩
  · subst hr
    rfl
  · subst hr
    rfl

/-- Witness for C8's persistence contract: an empty store, hash 1, a
successful receipt fetch and a successful persist give a durably saved
record; the same append with the persist failing keeps the record in
memory while the file stays unchanged. -/
theorem addTransaction_persistence_contract_witness :
    ((Except.ok (⟨false, 3, 21000⟩ : Receipt) : Except String Receipt)
        = .ok ⟨false, 3, 21000⟩) ∧
    addTransaction ⟨[], none⟩ 1 (.ok (infoW, false)) (.ok ⟨false, 3, 21000⟩) 42 true
      = (none, ⟨recordsInsert [] 1 (buildRecord 1 infoW (some ⟨false, 3, 21000⟩) 42),
          some (encodeHistoryJSON
            (recordsInsert [] 1 (buildRecord 1 infoW (some ⟨false, 3, 21000⟩) 42)))⟩) ∧
    addTransaction ⟨[], none⟩ 1 (.ok (infoW, false)) (.ok ⟨false, 3, 21000⟩) 42 false
      = (some HistErr.ioError,
          ⟨recordsInsert [] 1 (buildRecord 1 infoW (some ⟨false, 3, 21000⟩) 42), none⟩) := by
  have h := addTransaction_persistence_contract ⟨[], none⟩ 1 infoW
    (.ok ⟨false, 3, 21000⟩) 42
  exact ⟨rfl, h.2.1 ⟨false, 3, 21000⟩ rfl, h.2.2.2.1 ⟨false, 3, 21000⟩ rfl⟩
